import Mathlib

/-!
Formal model of the Terminusa Online economic core (currency_system.rs,
token_swapper.rs, blockchain_integration.rs).

Modelling conventions:
* `rust_decimal::Decimal` is modelled as `ℚ` (exact decimal arithmetic).
* Database rows are held in explicit state structures; every stateful
  operation returns `Except Error α × State` — the state component is
  returned on errors as well, because in the source every query runs
  directly on the connection pool (`&self.db_pool`) and auto-commits,
  so mutations performed before a failure persist.  In particular the
  `sqlx` transactions begun by `transfer_currency` and `swap_currency`
  are never used by the queries inside them, so their `rollback()` and
  `commit()` have no effect on those queries; the model makes each
  pool query take effect immediately and models `rollback` as a no-op.
* UUIDs are modelled as `Nat` ids drawn from a counter; timestamps and
  free-text notes are omitted (no claim depends on them); `confirmed_at`
  of blockchain transactions is kept, with time abstracted as a `Nat`.
* External I/O (Solana RPC submission, signature parsing, signature
  status queries, username resolution) is modelled by oracle functions
  stored in an environment record; database reads of static
  configuration (currency catalog, tax settings, exchange rates) are
  modelled as environment lookups.
-/

namespace Terminusa

/-- The three in-game currencies (`CurrencyType` in currency_system.rs). -/
inductive CurrencyType
  | Solana
  | Exons
  | Crystals
deriving DecidableEq, Repr

/-- A player's wallet: one balance per currency (`Wallet`). -/
structure Wallet where
  solanaBalance : ℚ
  exonsBalance : ℚ
  crystalsBalance : ℚ
deriving DecidableEq, Repr

/-- Read the balance field selected by a currency type. -/
def Wallet.bal (w : Wallet) : CurrencyType → ℚ
  | .Solana => w.solanaBalance
  | .Exons => w.exonsBalance
  | .Crystals => w.crystalsBalance

/-- Write the balance field selected by a currency type
(the dynamic column choice in `update_balance`). -/
def Wallet.setBal (w : Wallet) : CurrencyType → ℚ → Wallet
  | .Solana, v => { w with solanaBalance := v }
  | .Exons, v => { w with exonsBalance := v }
  | .Crystals, v => { w with crystalsBalance := v }

/-- Transaction kinds (`TransactionType`).  `Swap` is the swap-leg kind
used by token_swapper.rs (`TransactionType::Swap`, spec §3). -/
inductive TransactionType
  | Transfer
  | Purchase
  | Reward
  | GateReward
  | QuestReward
  | Tax
  | Mint
  | Burn
  | Swap
deriving DecidableEq, Repr

/-- Ledger transaction status (`TransactionStatus`). -/
inductive TransactionStatus
  | Pending
  | Completed
  | Failed
  | Cancelled
deriving DecidableEq, Repr

/-- A ledger transaction record (`Transaction` in currency_system.rs);
`none` in the player fields denotes the system. -/
structure LedgerTx where
  id : Nat
  fromPlayer : Option Nat
  toPlayer : Option Nat
  currencyId : Nat
  amount : ℚ
  taxAmount : ℚ
  txType : TransactionType
  referenceId : Option Nat
  status : TransactionStatus
  blockchainTxHash : Option String
deriving DecidableEq, Repr

/-- Per-currency tax configuration (`TaxSettings`). -/
structure TaxSettings where
  taxPercentage : ℚ
  guildTaxPercentage : ℚ
  adminAccount : String
deriving DecidableEq, Repr

/-- A currency catalog row (`Currency`), reduced to the fields the core
operations consult. -/
structure Currency where
  id : Nat
  isBlockchain : Bool
deriving DecidableEq, Repr

/-- Errors of currency operations (`CurrencyError`). -/
inductive CurrencyError
  | Database
  | InsufficientFunds (currency : CurrencyType) (required available : ℚ)
  | InvalidAmount (reason : String)
  | Blockchain (reason : String)
  | CurrencyNotFound (id : Nat)
  | WalletNotFound (playerId : Nat)
  | TransactionNotFound (id : Nat)
  | Unauthorized (reason : String)
  | System (reason : String)
deriving DecidableEq, Repr

/-- An exchange-rate row (`ExchangeRate` in token_swapper.rs). -/
structure ExchangeRate where
  rate : ℚ
  minAmount : ℚ
  maxAmount : ℚ
  feePercentage : ℚ
  isActive : Bool
deriving DecidableEq, Repr

/-- Swap status (`SwapStatus`). -/
inductive SwapStatus
  | Pending
  | Completed
  | Failed
  | Cancelled
deriving DecidableEq, Repr

/-- A swap transaction record (`SwapTransaction`). -/
structure SwapTx where
  id : Nat
  playerId : Nat
  fromCurrency : CurrencyType
  toCurrency : CurrencyType
  fromAmount : ℚ
  toAmount : ℚ
  feeAmount : ℚ
  rate : ℚ
  status : SwapStatus
  fromTransactionId : Option Nat
  toTransactionId : Option Nat
deriving DecidableEq, Repr

/-- Errors of swap operations (`SwapError`). -/
inductive SwapError
  | Database
  | Currency (e : CurrencyError)
  | ExchangeRateNotFound (fromC toC : CurrencyType)
  | ExchangeRateInactive (fromC toC : CurrencyType)
  | AmountTooSmall (min provided : ℚ)
  | AmountTooLarge (max provided : ℚ)
  | SwapNotFound (id : Nat)
  | Unauthorized (reason : String)
  | System (reason : String)
deriving DecidableEq, Repr

/-- Static configuration and external oracles shared by the ledger and
swap services: the currency catalog (`game.currencies`), tax settings
(`game.tax_settings`), username resolution (`auth.players`), the
service's configured admin wallet and Solana client, and the exchange
rate table (`game.exchange_rates`). -/
structure Env where
  catalog : CurrencyType → Option Currency
  taxSettings : Nat → Option TaxSettings
  resolvePlayer : String → Option Nat
  adminWallet : Option String
  solanaConfigured : Bool
  rates : CurrencyType → CurrencyType → Option ExchangeRate

/-- Mutable database state used by the ledger and swap services:
the wallet table, the ledger transaction log with its id counter, and
the swap transaction log with its id counter. -/
structure LedgerState where
  wallets : Nat → Option Wallet
  txLog : List LedgerTx
  nextTxId : Nat
  swapLog : List SwapTx
  nextSwapId : Nat

/-- Replace a player's wallet row. -/
def LedgerState.setWallet (st : LedgerState) (p : Nat) (w : Wallet) : LedgerState :=
  { st with wallets := fun q => if q = p then some w else st.wallets q }

/-- Balance of a player in a currency, `0` when no wallet row exists
(used only to state theorems; the operations themselves fail on a
missing wallet exactly as the source does). -/
def bal (st : LedgerState) (p : Nat) (c : CurrencyType) : ℚ :=
  match st.wallets p with
  | some w => w.bal c
  | none => 0

def msg_amount_positive : String := "Amount must be positive"

def msg_solana_not_configured : String := "Solana client not configured"

def default_admin_account : String := "adminbb"

/-- Signature mock returned by `handle_solana_transfer` (which always
succeeds with a mock signature in the source). -/
def mock_signature : String := "mock_signature"

/-- Port of `get_wallet`: fetch a wallet row or `WalletNotFound`. -/
def get_wallet (st : LedgerState) (p : Nat) : Except CurrencyError Wallet :=
  match st.wallets p with
  | some w => .ok w
  | none => .error (.WalletNotFound p)

/-- Port of `create_wallet`: return the existing wallet if one exists,
otherwise insert a wallet with all balances zero and return it. -/
def create_wallet (st : LedgerState) (p : Nat) :
    Except CurrencyError Wallet × LedgerState :=
  match st.wallets p with
  | some _ => (get_wallet st p, st)
  | none =>
    let w : Wallet := ⟨0, 0, 0⟩
    (.ok w, st.setWallet p w)

/-- Port of `get_balance`. -/
def get_balance (st : LedgerState) (p : Nat) (c : CurrencyType) :
    Except CurrencyError ℚ :=
  match get_wallet st p with
  | .ok w => .ok (w.bal c)
  | .error e => .error e

/-- Port of `update_balance`.  The source formats the column name into
both sides of the assignment — `SET <col> = <col>, last_updated = NOW()`
— so the statement is a self-assignment in which the new balance never
appears, and then binds `amount` as a second parameter to a query whose
only placeholder is `$1` (`player_id`).  The bind supplies two
parameters to a statement that takes one, which the database rejects,
so the call always fails with a database error and no balance is ever
written.  (Under the alternative reading in which the extra bind were
tolerated, the self-assignment would still leave the balance unchanged;
on no reading is the new balance stored.) -/
def update_balance (st : LedgerState) (_p : Nat) (_c : CurrencyType)
    (_amount : ℚ) : Except CurrencyError ℚ × LedgerState :=
  (.error .Database, st)

/-- Port of `add_currency`: reject non-positive amounts, then write
balance + amount. -/
def add_currency (st : LedgerState) (p : Nat) (c : CurrencyType) (amount : ℚ) :
    Except CurrencyError ℚ × LedgerState :=
  if amount ≤ 0 then (.error (.InvalidAmount msg_amount_positive), st)
  else
    match get_wallet st p with
    | .error e => (.error e, st)
    | .ok w => update_balance st p c (w.bal c + amount)

/-- Port of `remove_currency`: reject non-positive amounts, fail with
`InsufficientFunds {required := amount, available := balance}` when the
balance is short, otherwise write balance − amount. -/
def remove_currency (st : LedgerState) (p : Nat) (c : CurrencyType) (amount : ℚ) :
    Except CurrencyError ℚ × LedgerState :=
  if amount ≤ 0 then (.error (.InvalidAmount msg_amount_positive), st)
  else
    match get_wallet st p with
    | .error e => (.error e, st)
    | .ok w =>
      if w.bal c < amount then
        (.error (.InsufficientFunds c amount (w.bal c)), st)
      else
        update_balance st p c (w.bal c - amount)

/-- Port of `get_tax_settings`: the stored row for the currency, or the
0%/0% default with the admin wallet (falling back to "adminbb") when no
row exists. -/
def get_tax_settings (env : Env) (currencyId : Nat) : TaxSettings :=
  match env.taxSettings currencyId with
  | some settings => settings
  | none =>
    { taxPercentage := 0
      guildTaxPercentage := 0
      adminAccount := env.adminWallet.getD default_admin_account }

/-- Port of `calculate_tax`: base rate `tax_percentage / 100`, plus
`guild_tax_percentage / 100` for guild transactions, applied to the amount. -/
def calculate_tax (env : Env) (amount : ℚ) (currencyId : Nat)
    (isGuildTransaction : Bool) : ℚ :=
  let taxSettings := get_tax_settings env currencyId
  let taxRate := taxSettings.taxPercentage / 100
  let taxRate :=
    if isGuildTransaction then taxRate + taxSettings.guildTaxPercentage / 100
    else taxRate
  amount * taxRate

/-- Port of `create_transaction`: reject non-positive amounts, then append
a `pending` ledger transaction with a fresh id. -/
def create_transaction (st : LedgerState) (fromPlayer toPlayer : Option Nat)
    (currencyId : Nat) (amount taxAmount : ℚ) (txType : TransactionType)
    (referenceId : Option Nat) : Except CurrencyError LedgerTx × LedgerState :=
  if amount ≤ 0 then (.error (.InvalidAmount msg_amount_positive), st)
  else
    let t : LedgerTx :=
      { id := st.nextTxId
        fromPlayer := fromPlayer
        toPlayer := toPlayer
        currencyId := currencyId
        amount := amount
        taxAmount := taxAmount
        txType := txType
        referenceId := referenceId
        status := .Pending
        blockchainTxHash := none }
    (.ok t, { st with txLog := st.txLog ++ [t], nextTxId := st.nextTxId + 1 })

/-- Port of `get_transaction`. -/
def get_transaction (st : LedgerState) (id : Nat) : Except CurrencyError LedgerTx :=
  match st.txLog.find? (fun t => t.id == id) with
  | some t => .ok t
  | none => .error (.TransactionNotFound id)

/-- Port of `update_transaction_status` (ledger): set status and
blockchain hash of the row with the given id, returning the updated row
or `TransactionNotFound`. -/
def update_transaction_status (st : LedgerState) (id : Nat)
    (status : TransactionStatus) (blockchainTxHash : Option String) :
    Except CurrencyError LedgerTx × LedgerState :=
  let newLog := st.txLog.map fun t =>
    if t.id = id then { t with status := status, blockchainTxHash := blockchainTxHash }
    else t
  match newLog.find? (fun t => t.id == id) with
  | some t => (.ok t, { st with txLog := newLog })
  | none => (.error (.TransactionNotFound id), st)

/-- The blockchain block inside `transfer_currency`: for a
blockchain-backed Solana transfer, `handle_solana_transfer` (which, in
the source, always succeeds with a mock signature) runs and the ledger
record is updated to completed with that signature, failing with a
`System` error when no Solana client is configured; Exons and
non-blockchain currencies do nothing. -/
def transfer_blockchain_step (env : Env) (st1 : LedgerState)
    (currency : Currency) (currencyType : CurrencyType) (txId : Nat) :
    Except CurrencyError Unit × LedgerState :=
  if currency.isBlockchain then
    match currencyType with
    | .Solana =>
      if env.solanaConfigured then
        match update_transaction_status st1 txId .Completed
            (some mock_signature) with
        | (.error e, st2) => (.error e, st2)
        | (.ok _, st2) => (.ok (), st2)
      else (.error (.System msg_solana_not_configured), st1)
    | _ => (.ok (), st1)
  else (.ok (), st1)

/-- The tax block inside `transfer_currency`: when the tax is positive
and the configured admin account resolves to a player, credit that
player with the tax and record a tax transaction referencing the
primary one; when the account does not resolve, the tax is silently
dropped. -/
def transfer_tax_step (env : Env) (st4 : LedgerState) (fromPlayer : Nat)
    (currencyType : CurrencyType) (currencyId : Nat) (taxAmount : ℚ)
    (txId : Nat) : Except CurrencyError Unit × LedgerState :=
  if 0 < taxAmount then
    match env.resolvePlayer (get_tax_settings env currencyId).adminAccount with
    | some adminId =>
      match add_currency st4 adminId currencyType taxAmount with
      | (.error e, st5) => (.error e, st5)
      | (.ok _, st5) =>
        match create_transaction st5 (some fromPlayer) (some adminId)
            currencyId taxAmount 0 .Tax (some txId) with
        | (.error e, st6) => (.error e, st6)
        | (.ok _, st6) => (.ok (), st6)
    | none => (.ok (), st4)
  else (.ok (), st4)

/-- The final status update inside `transfer_currency`: the in-memory
`transaction` record still reads `pending` (even on the Solana path,
which re-reads the stale value), so the record is marked completed. -/
def transfer_finalize_step (st6 : LedgerState) (txRec : LedgerTx) :
    Except CurrencyError LedgerTx × LedgerState :=
  if txRec.status = .Pending then
    update_transaction_status st6 txRec.id .Completed none
  else (.ok txRec, st6)

/-- Port of `transfer_currency`.  The `db_pool.begin()` transaction in the
source is never passed to the queries below it, which all run directly on
the pool and auto-commit; its rollback/commit are therefore modelled as
no-ops, and error paths return the state mutated so far. -/
def transfer_currency (env : Env) (st : LedgerState) (fromPlayer toPlayer : Nat)
    (currencyType : CurrencyType) (amount : ℚ) (isGuildTransaction : Bool) :
    Except CurrencyError LedgerTx × LedgerState :=
  if amount ≤ 0 then (.error (.InvalidAmount msg_amount_positive), st)
  else
    match env.catalog currencyType with
    | none => (.error (.CurrencyNotFound 0), st)
    | some currency =>
      match get_balance st fromPlayer currencyType with
      | .error e => (.error e, st)
      | .ok senderBalance =>
        if senderBalance < amount + calculate_tax env amount currency.id isGuildTransaction then
          (.error (.InsufficientFunds currencyType
            (amount + calculate_tax env amount currency.id isGuildTransaction)
            senderBalance), st)
        else
          match create_transaction st (some fromPlayer) (some toPlayer)
              currency.id amount
              (calculate_tax env amount currency.id isGuildTransaction)
              .Transfer none with
          | (.error e, st1) => (.error e, st1)
          | (.ok txRec, st1) =>
            match transfer_blockchain_step env st1 currency currencyType txRec.id with
            | (.error e, st2) => (.error e, st2)
            | (.ok _, st2) =>
              match remove_currency st2 fromPlayer currencyType
                  (amount + calculate_tax env amount currency.id isGuildTransaction) with
              | (.error e, st3) => (.error e, st3)
              | (.ok _, st3) =>
                match add_currency st3 toPlayer currencyType amount with
                | (.error e, st4) => (.error e, st4)
                | (.ok _, st4) =>
                  match transfer_tax_step env st4 fromPlayer currencyType
                      currency.id
                      (calculate_tax env amount currency.id isGuildTransaction)
                      txRec.id with
                  | (.error e, st6) => (.error e, st6)
                  | (.ok _, st6) =>
                    match transfer_finalize_step st6 txRec with
                    | (.error e, st7) => (.error e, st7)
                    | (.ok _, st7) => (get_transaction st7 txRec.id, st7)

/-- Port of `reward_currency`.  The source file is truncated in the middle
of this function (currency_system.rs ends at line 905, inside the
`create_transaction` call).  Modelled from the spec: the rest of the
reward operation — everything after creating the ledger record — is
missing from the source; per spec §4.1 a reward is a system-to-player
credit with no tax, so the model credits the player and completes the
record. -/
def reward_currency (env : Env) (st : LedgerState) (playerId : Nat)
    (currencyType : CurrencyType) (amount : ℚ) (txType : TransactionType)
    (referenceId : Option Nat) : Except CurrencyError LedgerTx × LedgerState :=
  if amount ≤ 0 then (.error (.InvalidAmount msg_amount_positive), st)
  else
    match env.catalog currencyType with
    | none => (.error (.CurrencyNotFound 0), st)
    | some currency =>
      match create_transaction st none (some playerId) currency.id amount 0
          txType referenceId with
      | (.error e, st1) => (.error e, st1)
      | (.ok txRec, st1) =>
        match add_currency st1 playerId currencyType amount with
        | (.error e, st2) => (.error e, st2)
        | (.ok _, st2) =>
          match update_transaction_status st2 txRec.id .Completed none with
          | (.error e, st3) => (.error e, st3)
          | (.ok _, st3) => (get_transaction st3 txRec.id, st3)

/-- Port of `get_exchange_rate`: the stored row for the ordered pair, or
`ExchangeRateNotFound`; an inactive row yields `ExchangeRateInactive`. -/
def get_exchange_rate (env : Env) (fromCurrency toCurrency : CurrencyType) :
    Except SwapError ExchangeRate :=
  match env.rates fromCurrency toCurrency with
  | none => .error (.ExchangeRateNotFound fromCurrency toCurrency)
  | some rate =>
    if rate.isActive = false then
      .error (.ExchangeRateInactive fromCurrency toCurrency)
    else .ok rate

/-- Port of `calculate_swap_amount`: positivity precheck, rate lookup,
min/max bounds, then `fee = from_amount × fee% / 100` and
`to = (from_amount − fee) × rate`; returns `(to_amount, fee_amount, rate)`. -/
def calculate_swap_amount (env : Env) (fromCurrency toCurrency : CurrencyType)
    (fromAmount : ℚ) : Except SwapError (ℚ × ℚ × ℚ) :=
  if fromAmount ≤ 0 then .error (.System msg_amount_positive)
  else
    match get_exchange_rate env fromCurrency toCurrency with
    | .error e => .error e
    | .ok rate =>
      if fromAmount < rate.minAmount then
        .error (.AmountTooSmall rate.minAmount fromAmount)
      else if fromAmount > rate.maxAmount then
        .error (.AmountTooLarge rate.maxAmount fromAmount)
      else
        let feeAmount := fromAmount * rate.feePercentage / 100
        let toAmount := (fromAmount - feeAmount) * rate.rate
        .ok (toAmount, feeAmount, rate.rate)

/-- Port of `get_currency_id` (token_swapper.rs). -/
def get_currency_id (env : Env) (currencyType : CurrencyType) :
    Except SwapError Nat :=
  match env.catalog currencyType with
  | some currency => .ok currency.id
  | none => .error (.Currency (.CurrencyNotFound 0))

/-- The swap record inserted by `swap_currency` before any balance
moves: a fresh id, the quoted amounts, status `pending`, no leg ids. -/
def swap_record (st : LedgerState) (playerId : Nat)
    (fromCurrency toCurrency : CurrencyType)
    (fromAmount toAmount feeAmount rate : ℚ) : SwapTx :=
  { id := st.nextSwapId
    playerId := playerId
    fromCurrency := fromCurrency
    toCurrency := toCurrency
    fromAmount := fromAmount
    toAmount := toAmount
    feeAmount := feeAmount
    rate := rate
    status := .Pending
    fromTransactionId := none
    toTransactionId := none }

/-- Insert a swap record into the swap table. -/
def swap_insert (st : LedgerState) (s : SwapTx) : LedgerState :=
  { st with swapLog := st.swapLog ++ [s], nextSwapId := st.nextSwapId + 1 }

/-- The closing `UPDATE` of `swap_currency`: set the swap's status to
completed and attach the two leg transaction ids. -/
def swap_complete (st5 : LedgerState) (swapId fromTxId toTxId : Nat) :
    Except SwapError SwapTx × LedgerState :=
  let newSwapLog := st5.swapLog.map fun s =>
    if s.id = swapId then
      { s with
        status := .Completed
        fromTransactionId := some fromTxId
        toTransactionId := some toTxId }
    else s
  match newSwapLog.find? (fun s => s.id == swapId) with
  | some updated => (.ok updated, { st5 with swapLog := newSwapLog })
  | none => (.error .Database, st5)

/-- Port of `swap_currency`.  As with `transfer_currency`, the begun
`sqlx` transaction is never used by the queries inside it — the swap
insert, the balance mutations and the leg records all execute on the
pool and commit immediately — so the `tx.rollback()` calls on the error
paths undo nothing; error paths return the state mutated so far, with
the swap record still `pending`. -/
def swap_currency (env : Env) (st : LedgerState) (playerId : Nat)
    (fromCurrency toCurrency : CurrencyType) (fromAmount : ℚ) :
    Except SwapError SwapTx × LedgerState :=
  if fromAmount ≤ 0 then (.error (.System msg_amount_positive), st)
  else
    match calculate_swap_amount env fromCurrency toCurrency fromAmount with
    | .error e => (.error e, st)
    | .ok (toAmount, feeAmount, rate) =>
      match remove_currency
          (swap_insert st (swap_record st playerId fromCurrency toCurrency
            fromAmount toAmount feeAmount rate))
          playerId fromCurrency fromAmount with
      | (.error e, st2) => (.error (.Currency e), st2)
      | (.ok _, st2) =>
        match get_currency_id env fromCurrency with
        | .error e => (.error e, st2)
        | .ok fromCurrencyId =>
          match create_transaction st2 (some playerId) none fromCurrencyId
              fromAmount 0 .Swap (some st.nextSwapId) with
          | (.error e, st3) => (.error (.Currency e), st3)
          | (.ok fromTx, st3) =>
            match add_currency st3 playerId toCurrency toAmount with
            | (.error e, st4) => (.error (.Currency e), st4)
            | (.ok _, st4) =>
              match get_currency_id env toCurrency with
              | .error e => (.error e, st4)
              | .ok toCurrencyId =>
                match create_transaction st4 none (some playerId) toCurrencyId
                    toAmount 0 .Swap (some st.nextSwapId) with
                | (.error e, st5) => (.error (.Currency e), st5)
                | (.ok toTx, st5) =>
                  swap_complete st5 st.nextSwapId fromTx.id toTx.id

/-! Settlement adapter (blockchain_integration.rs). -/

/-- A linked blockchain wallet (`BlockchainWallet`), reduced to the
fields the withdrawal path consults. -/
structure BlockchainWallet where
  playerId : Nat
  solanaAddress : String
  isVerified : Bool
deriving DecidableEq, Repr

/-- Blockchain transaction kinds (`BlockchainTransactionType`). -/
inductive BlockchainTransactionType
  | Deposit
  | Withdrawal
  | Swap
  | Mint
  | Burn
deriving DecidableEq, Repr

/-- Blockchain transaction status (`BlockchainTransactionStatus`). -/
inductive BlockchainTransactionStatus
  | Pending
  | Confirmed
  | Failed
deriving DecidableEq, Repr

/-- A blockchain transaction record (`BlockchainTransaction`); time is
abstracted as a `Nat`. -/
structure BlockchainTransaction where
  id : Nat
  playerId : Nat
  currencyType : CurrencyType
  transactionType : BlockchainTransactionType
  amount : ℚ
  transactionHash : String
  status : BlockchainTransactionStatus
  confirmedAt : Option Nat
deriving DecidableEq, Repr

/-- Errors of blockchain operations (`BlockchainError`). -/
inductive BlockchainError
  | Database
  | SolanaClient (reason : String)
  | WalletNotFound (playerId : Nat)
  | WalletNotVerified (playerId : Nat)
  | InvalidWalletAddress (address : String)
  | TransactionNotFound (id : Nat)
  | TransactionFailed (reason : String)
  | Unauthorized (reason : String)
  | System (reason : String)
deriving DecidableEq, Repr

/-- Outcome of `get_signature_status` for a submitted signature:
finalized success (`Ok(Some(Ok(())))`), finalized failure
(`Ok(Some(Err(_)))`), still unresolved (`Ok(None)`), or a client error
(`Err(_)`). -/
inductive SignatureStatus
  | success
  | failure
  | stillPending
  | clientError
deriving DecidableEq, Repr

def msg_treasury_not_configured : String := "Treasury wallet keypair not configured"

def msg_unsupported_withdrawal : String := "Unsupported currency type for withdrawal"

/-- Configuration and external-chain oracles of the blockchain service:
whether the treasury signer is configured, the outcome of submitting a
signed transfer for a currency to an address (the whole
`send_solana` / `send_exons` pipeline: conversion, address parsing,
token-account discovery, signing and submission), whether a stored hash
parses as a `Signature`, the chain's answer about a signature, and the
current time. -/
structure ChainEnv where
  treasuryConfigured : Bool
  submit : CurrencyType → String → ℚ → Except BlockchainError String
  parsesAsSignature : String → Bool
  signatureStatus : String → SignatureStatus
  now : Nat

/-- Mutable state of the blockchain service: the linked-wallet table and
the blockchain transaction table with its id counter. -/
structure ChainState where
  bwallets : Nat → Option BlockchainWallet
  btxs : List BlockchainTransaction
  nextBTxId : Nat

/-- Port of `get_wallet` (blockchain_integration.rs). -/
def get_bwallet (st : ChainState) (p : Nat) :
    Except BlockchainError BlockchainWallet :=
  match st.bwallets p with
  | some w => .ok w
  | none => .error (.WalletNotFound p)

/-- Port of `record_transaction`: append a blockchain transaction with a
fresh id; `confirmed_at` is set only when the recorded status is
`confirmed`. -/
def record_transaction (env : ChainEnv) (st : ChainState) (playerId : Nat)
    (currencyType : CurrencyType) (transactionType : BlockchainTransactionType)
    (amount : ℚ) (transactionHash : String)
    (status : BlockchainTransactionStatus) :
    BlockchainTransaction × ChainState :=
  let t : BlockchainTransaction :=
    { id := st.nextBTxId
      playerId := playerId
      currencyType := currencyType
      transactionType := transactionType
      amount := amount
      transactionHash := transactionHash
      status := status
      confirmedAt := if status = .Confirmed then some env.now else none }
  (t, { st with btxs := st.btxs ++ [t], nextBTxId := st.nextBTxId + 1 })

/-- The row-level effect of the `UPDATE` in `update_transaction_status`
(blockchain): set the status of the row with the given id, refreshing
`confirmed_at` only when the new status is `confirmed`. -/
def update_btx_log (env : ChainEnv) (log : List BlockchainTransaction)
    (id : Nat) (status : BlockchainTransactionStatus) :
    List BlockchainTransaction :=
  log.map fun t =>
    if t.id = id then
      { t with
        status := status
        confirmedAt := if status = .Confirmed then some env.now else t.confirmedAt }
    else t

/-- Port of `update_transaction_status` (blockchain): apply the update
unconditionally to whatever row has the id — there is no guard on the
row's current status — returning the updated row or
`TransactionNotFound`. -/
def update_btx_status (env : ChainEnv) (st : ChainState) (id : Nat)
    (status : BlockchainTransactionStatus) :
    Except BlockchainError BlockchainTransaction × ChainState :=
  let newTxs := update_btx_log env st.btxs id status
  match newTxs.find? (fun t => t.id == id) with
  | some t => (.ok t, { st with btxs := newTxs })
  | none => (.error (.TransactionNotFound id), st)

/-- The currency dispatch inside `process_withdrawal`: Solana and Exons
submit a signed transfer from the treasury (`send_solana` / `send_exons`);
any other currency is rejected. -/
def withdrawal_submit (env : ChainEnv) (currencyType : CurrencyType)
    (address : String) (amount : ℚ) : Except BlockchainError String :=
  match currencyType with
  | .Solana => env.submit .Solana address amount
  | .Exons => env.submit .Exons address amount
  | .Crystals => .error (.System msg_unsupported_withdrawal)

/-- Port of `process_withdrawal`: requires a linked, verified wallet and
a configured treasury signer; submits the transfer and only on
submission success records one `pending` blockchain transaction whose
hash is the submission's reference. -/
def process_withdrawal (env : ChainEnv) (st : ChainState) (playerId : Nat)
    (currencyType : CurrencyType) (amount : ℚ) :
    Except BlockchainError BlockchainTransaction × ChainState :=
  match get_bwallet st playerId with
  | .error e => (.error e, st)
  | .ok wallet =>
    if wallet.isVerified = false then (.error (.WalletNotVerified playerId), st)
    else if env.treasuryConfigured = false then
      (.error (.System msg_treasury_not_configured), st)
    else
      match withdrawal_submit env currencyType wallet.solanaAddress amount with
      | .error e => (.error e, st)
      | .ok transactionHash =>
        let (t, st1) := record_transaction env st playerId currencyType
          .Withdrawal amount transactionHash .Pending
        (.ok t, st1)

/-- The outcome the reconciliation loop assigns to one pending record:
an unparsable stored hash is marked failed; a finalized success is
confirmed; a finalized failure is failed; an unresolved or errored
status query leaves the record pending (`none`). -/
def monitor_outcome (env : ChainEnv) (t : BlockchainTransaction) :
    Option BlockchainTransactionStatus :=
  if env.parsesAsSignature t.transactionHash = false then some .Failed
  else
    match env.signatureStatus t.transactionHash with
    | .success => some .Confirmed
    | .failure => some .Failed
    | .stillPending => none
    | .clientError => none

/-- One iteration of the loop body of `monitor_pending_transactions`,
acting on the current table for the fetched pending row `t`: parse the
stored hash (unparsable → mark failed), then dispatch on the chain's
answer; the two `continue` arms leave the table untouched.  The
`update_transaction_status` calls inside the loop cannot fail because
the row ids fetched from the table persist, so the loop body is the
plain table update. -/
def monitor_step (env : ChainEnv) (acc : List BlockchainTransaction)
    (t : BlockchainTransaction) : List BlockchainTransaction :=
  if env.parsesAsSignature t.transactionHash = false then
    update_btx_log env acc t.id .Failed
  else
    match env.signatureStatus t.transactionHash with
    | .success => update_btx_log env acc t.id .Confirmed
    | .failure => update_btx_log env acc t.id .Failed
    | .stillPending => acc
    | .clientError => acc

/-- Port of `monitor_pending_transactions`: fetch the rows whose status
is `pending`, then run the loop body over them against the table. -/
def monitor_pending_transactions (env : ChainEnv) (st : ChainState) : ChainState :=
  let pendingTransactions := st.btxs.filter fun t => t.status == .Pending
  { st with btxs := pendingTransactions.foldl (monitor_step env) st.btxs }

/-! Basic lemmas about wallets and state updates. -/

@[simp]
theorem Wallet.bal_setBal_same (w : Wallet) (c : CurrencyType) (v : ℚ) :
    (w.setBal c v).bal c = v := by
  cases c <;> simp [Wallet.bal, Wallet.setBal]

theorem Wallet.bal_setBal_ne (w : Wallet) (c c' : CurrencyType) (v : ℚ)
    (h : c' ≠ c) : (w.setBal c v).bal c' = w.bal c' := by
  cases c <;> cases c' <;> simp_all [Wallet.bal, Wallet.setBal]

@[simp]
theorem LedgerState.setWallet_same (st : LedgerState) (p : Nat) (w : Wallet) :
    (st.setWallet p w).wallets p = some w := by
  simp [LedgerState.setWallet]

theorem LedgerState.setWallet_ne (st : LedgerState) (p q : Nat) (w : Wallet)
    (h : q ≠ p) : (st.setWallet p w).wallets q = st.wallets q := by
  simp [LedgerState.setWallet, h]

def wC4 : Wallet := ⟨0, 0, 100⟩

def stC4 : LedgerState :=
  { wallets := fun p => if p = 0 then some wC4 else none
    txLog := []
    nextTxId := 0
    swapLog := []
    nextSwapId := 0 }

/-- C4 evaluated at the failing input: a wallet holds 100 Crystals, yet
`debit(100)` does not succeed with balance 0 — the sufficiency check
passes and the call then dies in `update_balance`'s malformed UPDATE,
returning a database error with the balance still 100 — so the claimed
`debit(100) → 0` / `InsufficientFunds{required := 1, available := 0}`
scenario can never occur.  The validation branches do match the claim:
a non-positive amount is rejected with `InvalidAmount` and an
over-drawing amount with `InsufficientFunds{required, available}`, both
leaving the state unchanged. -/
theorem remove_currency_update_bug :
    bal stC4 0 .Crystals = 100 ∧
    remove_currency stC4 0 .Crystals 100 = (.error .Database, stC4) ∧
    remove_currency stC4 0 .Crystals 0 =
      (.error (.InvalidAmount msg_amount_positive), stC4) ∧
    remove_currency stC4 0 .Crystals 101 =
      (.error (.InsufficientFunds .Crystals 101 100), stC4) := by
  refine ⟨by norm_num [bal, stC4, wC4, Wallet.bal], ?_, ?_, ?_⟩ <;>
    norm_num [remove_currency, get_wallet, stC4, wC4, update_balance, Wallet.bal]

/-- C5: the computed tax equals
`amount × (base_percent + (guild_percent if guild else 0)) / 100` in
exact decimal (rational) arithmetic, and when no tax-settings row exists
for the currency the computed tax is exactly 0. -/
theorem calculate_tax_spec (env : Env) (amount : ℚ) (currencyId : Nat)
    (isGuild : Bool) :
    calculate_tax env amount currencyId isGuild =
      amount * ((get_tax_settings env currencyId).taxPercentage +
        (if isGuild then (get_tax_settings env currencyId).guildTaxPercentage else 0)) / 100 ∧
    (env.taxSettings currencyId = none →
      calculate_tax env amount currencyId isGuild = 0) := by
  constructor
  · cases isGuild <;> simp [calculate_tax] <;> ring
  · intro h
    cases isGuild <;> simp [calculate_tax, get_tax_settings, h]

def envC5 : Env :=
  { catalog := fun _ => none
    taxSettings := fun cid => if cid = 3 then some ⟨13, 2, "adminbb"⟩ else none
    resolvePlayer := fun _ => none
    adminWallet := none
    solanaConfigured := false
    rates := fun _ _ => none }

/-- Witness for C5: with a 13% base rate and no guild flag, the tax on
100 is exactly 13; and for a currency with no tax-settings row the tax
is exactly 0. -/
theorem calculate_tax_spec_witness :
    calculate_tax envC5 100 3 false = 13 ∧ calculate_tax envC5 100 7 false = 0 := by
  constructor
  · have h := (calculate_tax_spec envC5 100 3 false).1
    rw [h]
    norm_num [get_tax_settings, envC5]
  · exact (calculate_tax_spec envC5 100 7 false).2 rfl

/-- C6 (amended): for strictly positive `from_amount`, `calculate_swap_amount`
fails with `ExchangeRateNotFound` when no rate row exists for the ordered
pair, `ExchangeRateInactive` when the row is disabled, `AmountTooSmall`
below the minimum, `AmountTooLarge` above the maximum, and otherwise
returns `fee = from_amount × fee% / 100` and
`to = (from_amount − fee) × rate`.  (Non-positive amounts are rejected
with a `System` error before the rate lookup — see the counterexample.) -/
theorem calculate_swap_amount_spec (env : Env) (fromC toC : CurrencyType)
    (a : ℚ) (ha : 0 < a) :
    (env.rates fromC toC = none →
      calculate_swap_amount env fromC toC a =
        .error (.ExchangeRateNotFound fromC toC)) ∧
    (∀ r, env.rates fromC toC = some r → r.isActive = false →
      calculate_swap_amount env fromC toC a =
        .error (.ExchangeRateInactive fromC toC)) ∧
    (∀ r, env.rates fromC toC = some r → r.isActive = true →
      a < r.minAmount →
      calculate_swap_amount env fromC toC a =
        .error (.AmountTooSmall r.minAmount a)) ∧
    (∀ r, env.rates fromC toC = some r → r.isActive = true →
      r.minAmount ≤ a → r.maxAmount < a →
      calculate_swap_amount env fromC toC a =
        .error (.AmountTooLarge r.maxAmount a)) ∧
    (∀ r, env.rates fromC toC = some r → r.isActive = true →
      r.minAmount ≤ a → a ≤ r.maxAmount →
      calculate_swap_amount env fromC toC a =
        .ok ((a - a * r.feePercentage / 100) * r.rate,
             a * r.feePercentage / 100, r.rate)) := by
  refine ⟨fun h => ?_, fun r hr hact => ?_, fun r hr hact h1 => ?_,
    fun r hr hact h1 h2 => ?_, fun r hr hact h1 h2 => ?_⟩
  · simp [calculate_swap_amount, get_exchange_rate, h, not_le.mpr ha]
  · simp [calculate_swap_amount, get_exchange_rate, hr, hact, not_le.mpr ha]
  · simp [calculate_swap_amount, get_exchange_rate, hr, hact, not_le.mpr ha, h1]
  · simp [calculate_swap_amount, get_exchange_rate, hr, hact, not_le.mpr ha,
      not_lt.mpr h1, h2]
  · simp [calculate_swap_amount, get_exchange_rate, hr, hact, not_le.mpr ha,
      not_lt.mpr h1, not_lt.mpr h2]

def rateC6 : ExchangeRate := ⟨100, 1, 1000, 13, true⟩

def envC6 : Env :=
  { catalog := fun _ => none
    taxSettings := fun _ => none
    resolvePlayer := fun _ => none
    adminWallet := none
    solanaConfigured := false
    rates := fun f t =>
      if f = .Exons ∧ t = .Crystals then some rateC6 else none }

/-- Witness for C6, the spec's concrete scenario 3: Exons→Crystals with
rate 100, fee 13%, bounds [1, 1000]: a swap of 10 quotes fee 1.3 and
to_amount (10 − 1.3) × 100 = 870. -/
theorem calculate_swap_amount_spec_witness :
    calculate_swap_amount envC6 .Exons .Crystals 10 = .ok (870, 13 / 10, 100) := by
  have h := (calculate_swap_amount_spec envC6 .Exons .Crystals 10 (by norm_num)).2.2.2.2
    rateC6 rfl rfl (by norm_num [rateC6]) (by norm_num [rateC6])
  rw [h]
  norm_num [rateC6]

/-- Counterexample for C6 as stated: with an active Exons→Crystals rate
row whose minimum is 1, the quote of `from_amount = 0 < min_amount` does
not fail with `AmountTooSmall` — the positivity precheck rejects it with
a `System` error before the rate is consulted. -/
theorem calculate_swap_amount_nonpositive_cex :
    envC6.rates .Exons .Crystals = some rateC6 ∧
    rateC6.isActive = true ∧
    (0 : ℚ) < rateC6.minAmount ∧
    calculate_swap_amount envC6 .Exons .Crystals 0 =
      .error (.System msg_amount_positive) ∧
    calculate_swap_amount envC6 .Exons .Crystals 0 ≠
      .error (.AmountTooSmall rateC6.minAmount 0) := by
  refine ⟨rfl, rfl, by norm_num [rateC6], by simp [calculate_swap_amount], ?_⟩
  simp [calculate_swap_amount]

/-- C10: `create_wallet` returns the existing wallet unchanged when one
exists, creates an all-zero wallet when none exists, and is idempotent:
a second call returns the same wallet and leaves the state of the first
call unchanged. -/
theorem create_wallet_spec (st : LedgerState) (p : Nat) :
    (∀ w, st.wallets p = some w → create_wallet st p = (.ok w, st)) ∧
    (st.wallets p = none →
      create_wallet st p = (.ok ⟨0, 0, 0⟩, st.setWallet p ⟨0, 0, 0⟩)) ∧
    create_wallet (create_wallet st p).2 p =
      ((create_wallet st p).1, (create_wallet st p).2) := by
  refine ⟨fun w hw => ?_, fun h => ?_, ?_⟩
  · simp [create_wallet, get_wallet, hw]
  · simp [create_wallet, h]
  · match h : st.wallets p with
    | some w => simp [create_wallet, get_wallet, h]
    | none => simp [create_wallet, get_wallet, h]

def stC10 : LedgerState :=
  { wallets := fun p => if p = 0 then some wC4 else none
    txLog := []
    nextTxId := 0
    swapLog := []
    nextSwapId := 0 }

/-- Witness for C10: creating a wallet for a player without one yields
the all-zero wallet, and creating one for a player who already has a
wallet returns that wallet with the state unchanged. -/
theorem create_wallet_spec_witness :
    create_wallet stC10 1 = (.ok ⟨0, 0, 0⟩, stC10.setWallet 1 ⟨0, 0, 0⟩) ∧
    create_wallet stC10 0 = (.ok wC4, stC10) :=
  ⟨(create_wallet_spec stC10 1).2.1 rfl, (create_wallet_spec stC10 0).1 wC4 rfl⟩

/-! Characterization of the reconciliation loop. -/

/-- The record-level effect of a status update performed by the
reconciliation loop on the row it targets. -/
def set_btx_status (env : ChainEnv) (r : BlockchainTransaction)
    (s : BlockchainTransactionStatus) : BlockchainTransaction :=
  { r with
    status := s
    confirmedAt := if s = .Confirmed then some env.now else r.confirmedAt }

/-- The effect of one loop iteration for fetched row `t` on an arbitrary
record `r` of the table. -/
def monitor_apply1 (env : ChainEnv) (t r : BlockchainTransaction) :
    BlockchainTransaction :=
  if r.id = t.id then
    match monitor_outcome env t with
    | some s => set_btx_status env r s
    | none => r
  else r

/-- The cumulative effect of iterating over the fetched rows `ts` on one
record `r` of the table. -/
def apply_monitor (env : ChainEnv) (ts : List BlockchainTransaction)
    (r : BlockchainTransaction) : BlockchainTransaction :=
  ts.foldl (fun r t => monitor_apply1 env t r) r

theorem set_btx_status_id (env : ChainEnv) (r : BlockchainTransaction)
    (s : BlockchainTransactionStatus) : (set_btx_status env r s).id = r.id := rfl

theorem set_btx_status_hash (env : ChainEnv) (r : BlockchainTransaction)
    (s : BlockchainTransactionStatus) :
    (set_btx_status env r s).transactionHash = r.transactionHash := rfl

theorem monitor_apply1_id (env : ChainEnv) (t r : BlockchainTransaction) :
    (monitor_apply1 env t r).id = r.id := by
  unfold monitor_apply1
  split
  · split <;> rfl
  · rfl

theorem monitor_outcome_ne_pending (env : ChainEnv) (t : BlockchainTransaction) :
    monitor_outcome env t ≠ some .Pending := by
  unfold monitor_outcome
  split
  · simp
  · split <;> simp

theorem list_map_id_of {α : Type} (l : List α) (f : α → α)
    (h : ∀ a ∈ l, f a = a) : l.map f = l := by
  induction l with
  | nil => rfl
  | cons a l ih =>
    simp only [List.map_cons, h a (List.mem_cons_self a l)]
    rw [ih fun b hb => h b (List.mem_cons_of_mem a hb)]

theorem map_monitor_apply1_none (env : ChainEnv)
    (acc : List BlockchainTransaction) (t : BlockchainTransaction)
    (h : monitor_outcome env t = none) :
    acc.map (monitor_apply1 env t) = acc :=
  list_map_id_of acc _ fun r _ => by simp [monitor_apply1, h]

theorem monitor_step_eq (env : ChainEnv) (acc : List BlockchainTransaction)
    (t : BlockchainTransaction) :
    monitor_step env acc t = acc.map (monitor_apply1 env t) := by
  by_cases hp : env.parsesAsSignature t.transactionHash = false
  · simp [monitor_step, monitor_apply1, monitor_outcome, update_btx_log,
      set_btx_status, hp]
  · cases hs : env.signatureStatus t.transactionHash
    · simp [monitor_step, monitor_apply1, monitor_outcome, update_btx_log,
        set_btx_status, hp, hs]
    · simp [monitor_step, monitor_apply1, monitor_outcome, update_btx_log,
        set_btx_status, hp, hs]
    · rw [map_monitor_apply1_none env acc t (by simp [monitor_outcome, hp, hs])]
      simp [monitor_step, hp, hs]
    · rw [map_monitor_apply1_none env acc t (by simp [monitor_outcome, hp, hs])]
      simp [monitor_step, hp, hs]

theorem monitor_foldl_map (env : ChainEnv) (ts : List BlockchainTransaction) :
    ∀ acc : List BlockchainTransaction,
      ts.foldl (monitor_step env) acc = acc.map (apply_monitor env ts) := by
  induction ts with
  | nil =>
    intro acc
    rw [List.foldl_nil]
    exact (list_map_id_of acc _ fun r _ => rfl).symm
  | cons t ts ih =>
    intro acc
    rw [List.foldl_cons, ih, monitor_step_eq, List.map_map]
    rfl

theorem apply_monitor_not_mem (env : ChainEnv) (ts : List BlockchainTransaction)
    (r : BlockchainTransaction) (h : ∀ t ∈ ts, t.id ≠ r.id) :
    apply_monitor env ts r = r := by
  induction ts with
  | nil => rfl
  | cons t ts ih =>
    have h1 : monitor_apply1 env t r = r := by
      have hne : ¬ r.id = t.id :=
        fun hc => h t (List.mem_cons_self t ts) (Eq.symm hc)
      simp [monitor_apply1, hne]
    show apply_monitor env ts (monitor_apply1 env t r) = r
    rw [h1]
    exact ih fun u hu => h u (List.mem_cons_of_mem t hu)

theorem apply_monitor_mem (env : ChainEnv) (ts : List BlockchainTransaction)
    (r : BlockchainTransaction)
    (hpw : ts.Pairwise (fun a b => a.id ≠ b.id)) (hr : r ∈ ts) :
    apply_monitor env ts r =
      match monitor_outcome env r with
      | some s => set_btx_status env r s
      | none => r := by
  induction ts with
  | nil => cases hr
  | cons t ts ih =>
    rcases List.pairwise_cons.mp hpw with ⟨hhead, htail⟩
    rcases List.mem_cons.mp hr with heq | hmem
    · subst heq
      have h1 : monitor_apply1 env r r =
          (match monitor_outcome env r with
           | some s => set_btx_status env r s
           | none => r) := by
        simp [monitor_apply1]
      have hids : ∀ u ∈ ts, u.id ≠ (monitor_apply1 env r r).id := by
        intro u hu
        rw [monitor_apply1_id]
        exact (hhead u hu).symm
      show apply_monitor env ts (monitor_apply1 env r r) = _
      rw [apply_monitor_not_mem env ts _ hids, h1]
    · have hne : ¬ r.id = t.id := fun hc => hhead r hmem (Eq.symm hc)
      have h1 : monitor_apply1 env t r = r := by simp [monitor_apply1, hne]
      show apply_monitor env ts (monitor_apply1 env t r) = _
      rw [h1]
      exact ih htail hmem

theorem pairwise_id_inj {l : List BlockchainTransaction}
    (hpw : l.Pairwise (fun a b => a.id ≠ b.id)) :
    ∀ t ∈ l, ∀ r ∈ l, t.id = r.id → t = r := by
  induction l with
  | nil => intro t ht; cases ht
  | cons a l ih =>
    rcases List.pairwise_cons.mp hpw with ⟨hhead, htail⟩
    intro t ht r hr hid
    rcases List.mem_cons.mp ht with rfl | htm
    · rcases List.mem_cons.mp hr with rfl | hrm
      · rfl
      · exact absurd hid (hhead r hrm)
    · rcases List.mem_cons.mp hr with rfl | hrm
      · exact absurd hid.symm (hhead t htm)
      · exact ih htail t htm r hrm hid

/-- What the claim says one loop run does to a single record: non-pending
records are untouched; a pending record is marked according to its chain
outcome, or left pending when the outcome is unresolved. -/
def monitor_expected (env : ChainEnv) (r : BlockchainTransaction) :
    BlockchainTransaction :=
  if r.status = .Pending then
    match monitor_outcome env r with
    | some s => set_btx_status env r s
    | none => r
  else r

/-- Characterization of one loop run as a pointwise map over the table,
given the table's primary-key uniqueness. -/
theorem monitor_btxs_characterization (env : ChainEnv) (st : ChainState)
    (hpw : st.btxs.Pairwise (fun a b => a.id ≠ b.id)) :
    (monitor_pending_transactions env st).btxs =
      st.btxs.map (monitor_expected env) := by
  unfold monitor_expected
  show (st.btxs.filter fun t => t.status == .Pending).foldl (monitor_step env) st.btxs = _
  rw [monitor_foldl_map]
  apply List.map_congr_left
  intro r hr
  by_cases hs : r.status = .Pending
  · have hrp : r ∈ st.btxs.filter fun t => t.status == .Pending := by
      simp [List.mem_filter, hr, hs]
    have hpwf : (st.btxs.filter fun t => t.status == .Pending).Pairwise
        (fun a b => a.id ≠ b.id) := hpw.filter _
    rw [apply_monitor_mem env _ r hpwf hrp]
    simp [hs]
  · have hnm : ∀ t ∈ st.btxs.filter (fun t => t.status == .Pending), t.id ≠ r.id := by
      intro t htm hid
      have htb := (List.mem_filter.mp htm).1
      have htp := (List.mem_filter.mp htm).2
      have := pairwise_id_inj hpw t htb r hr hid
      subst this
      simp at htp
      exact hs htp
    rw [apply_monitor_not_mem env _ r hnm]
    simp [hs]

/-- C7: one run of the reconciliation loop maps each record of the table
(with the table's primary-key uniqueness) as follows: non-pending
records are untouched; a pending record whose stored hash does not
parse as a signature is marked failed; one whose chain outcome is a
finalized success is marked confirmed; a finalized failure is marked
failed; and an unresolved or errored status query leaves it pending
(see `monitor_outcome` for the outcome mapping). -/
theorem monitor_pending_transactions_spec (env : ChainEnv) (st : ChainState)
    (hpw : st.btxs.Pairwise (fun a b => a.id ≠ b.id)) :
    (monitor_pending_transactions env st).btxs =
      st.btxs.map (monitor_expected env) :=
  monitor_btxs_characterization env st hpw

def hash_good : String := "sig-good"

def hash_bad : String := "not-a-signature"

def hash_fail : String := "sig-fail"

def hash_slow : String := "sig-slow"

def envC7 : ChainEnv :=
  { treasuryConfigured := false
    submit := fun _ _ _ => .error .Database
    parsesAsSignature := fun h => h != hash_bad
    signatureStatus := fun h =>
      if h = hash_good then .success
      else if h = hash_fail then .failure
      else .stillPending
    now := 5 }

def stC7 : ChainState :=
  { bwallets := fun _ => none
    btxs := [⟨0, 10, .Solana, .Withdrawal, 1, hash_good, .Pending, none⟩,
             ⟨1, 10, .Exons, .Withdrawal, 2, hash_bad, .Pending, none⟩,
             ⟨2, 11, .Solana, .Withdrawal, 3, hash_fail, .Pending, none⟩,
             ⟨3, 11, .Exons, .Withdrawal, 4, hash_slow, .Pending, none⟩,
             ⟨4, 12, .Solana, .Deposit, 5, hash_good, .Confirmed, some 1⟩]
    nextBTxId := 5 }

theorem stC7_pairwise : stC7.btxs.Pairwise (fun a b => a.id ≠ b.id) := by
  simp [stC7, List.pairwise_cons]

/-- Witness for C7: on a table holding four pending records — one whose
chain outcome is a finalized success, one with an unparsable hash, one
with a finalized failure, one still unresolved — and one confirmed
record, the loop confirms the first, fails the second and third, leaves
the fourth pending, and does not touch the confirmed record. -/
theorem monitor_pending_transactions_spec_witness :
    (monitor_pending_transactions envC7 stC7).btxs =
      [⟨0, 10, .Solana, .Withdrawal, 1, hash_good, .Confirmed, some 5⟩,
       ⟨1, 10, .Exons, .Withdrawal, 2, hash_bad, .Failed, none⟩,
       ⟨2, 11, .Solana, .Withdrawal, 3, hash_fail, .Failed, none⟩,
       ⟨3, 11, .Exons, .Withdrawal, 4, hash_slow, .Pending, none⟩,
       ⟨4, 12, .Solana, .Deposit, 5, hash_good, .Confirmed, some 1⟩] := by
  rw [monitor_pending_transactions_spec envC7 stC7 stC7_pairwise]
  simp [stC7, envC7, monitor_expected, monitor_outcome, set_btx_status,
    hash_good, hash_bad, hash_fail, hash_slow]

theorem monitor_expected_id (env : ChainEnv) (r : BlockchainTransaction) :
    (monitor_expected env r).id = r.id := by
  unfold monitor_expected
  split
  · split <;> rfl
  · rfl

theorem monitor_expected_idem (env : ChainEnv) (r : BlockchainTransaction) :
    monitor_expected env (monitor_expected env r) = monitor_expected env r := by
  by_cases hs : r.status = .Pending
  · cases ho : monitor_outcome env r with
    | none => simp [monitor_expected, hs, ho]
    | some s =>
      have hs2 : s ≠ .Pending := by
        intro hc
        subst hc
        exact monitor_outcome_ne_pending env r ho
      have h1 : monitor_expected env r = set_btx_status env r s := by
        simp [monitor_expected, hs, ho]
      rw [h1]
      have hst : (set_btx_status env r s).status = s := rfl
      simp [monitor_expected, hst, hs2]
  · simp [monitor_expected, hs]

/-- C8 (amended): terminal records are never touched by the
reconciliation loop — it selects only pending rows — and running the
loop twice in succession against the same chain answers produces no
state change on the second run.  (The raw `update_transaction_status`
operation, however, is unguarded: see the counterexample.) -/
theorem monitor_terminal_and_idempotent (env : ChainEnv) (st : ChainState)
    (hpw : st.btxs.Pairwise (fun a b => a.id ≠ b.id)) :
    (∀ r ∈ st.btxs, r.status ≠ .Pending →
      r ∈ (monitor_pending_transactions env st).btxs) ∧
    monitor_pending_transactions env (monitor_pending_transactions env st) =
      monitor_pending_transactions env st := by
  have hchar := monitor_btxs_characterization env st hpw
  constructor
  · intro r hr hs
    rw [hchar]
    exact List.mem_map.mpr ⟨r, hr, by simp [monitor_expected, hs]⟩
  · have hpw2 : (monitor_pending_transactions env st).btxs.Pairwise
        (fun a b => a.id ≠ b.id) := by
      rw [hchar]
      exact List.pairwise_map.mpr (hpw.imp fun h => by
        rw [monitor_expected_id, monitor_expected_id]; exact h)
    have hchar2 := monitor_btxs_characterization env
      (monitor_pending_transactions env st) hpw2
    have hfix : ∀ r ∈ (monitor_pending_transactions env st).btxs,
        monitor_expected env r = r := by
      intro r hr
      rw [hchar] at hr
      obtain ⟨r0, _, rfl⟩ := List.mem_map.mp hr
      exact monitor_expected_idem env r0
    have hB : (monitor_pending_transactions env
        (monitor_pending_transactions env st)).btxs =
        (monitor_pending_transactions env st).btxs := by
      rw [hchar2]
      exact list_map_id_of _ _ hfix
    calc monitor_pending_transactions env (monitor_pending_transactions env st)
        = { monitor_pending_transactions env st with
            btxs := (monitor_pending_transactions env
              (monitor_pending_transactions env st)).btxs } := rfl
      _ = { monitor_pending_transactions env st with
            btxs := (monitor_pending_transactions env st).btxs } := by rw [hB]
      _ = monitor_pending_transactions env st := rfl

/-- Witness for C8 (amended): on the concrete table of the C7 witness,
the confirmed record survives the loop untouched and a second loop run
changes nothing. -/
theorem monitor_terminal_and_idempotent_witness :
    (⟨4, 12, .Solana, .Deposit, 5, hash_good, .Confirmed, some 1⟩ :
        BlockchainTransaction) ∈ (monitor_pending_transactions envC7 stC7).btxs ∧
    monitor_pending_transactions envC7 (monitor_pending_transactions envC7 stC7) =
      monitor_pending_transactions envC7 stC7 := by
  have h := monitor_terminal_and_idempotent envC7 stC7 stC7_pairwise
  exact ⟨h.1 _ (by simp [stC7]) (by simp), h.2⟩

def envC8 : ChainEnv :=
  { treasuryConfigured := false
    submit := fun _ _ _ => .error .Database
    parsesAsSignature := fun _ => true
    signatureStatus := fun _ => .stillPending
    now := 9 }

def stC8 : ChainState :=
  { bwallets := fun _ => none
    btxs := [⟨0, 7, .Solana, .Withdrawal, 1, hash_good, .Confirmed, some 2⟩]
    nextBTxId := 1 }

/-- Counterexample for C8 as stated: `update_transaction_status` applies
any requested status unconditionally, so invoking it on a confirmed
record with `pending` reopens the record — a terminal status is not
immutable under every operation of the service. -/
theorem update_btx_status_reopens_cex :
    (stC8.btxs.map fun t => t.status) = [.Confirmed] ∧
    (((update_btx_status envC8 stC8 0 .Pending).2).btxs.map fun t => t.status) =
      [.Pending] := by
  constructor
  · rfl
  · simp [update_btx_status, update_btx_log, stC8, envC8]

/-- C9: `process_withdrawal` fails with `WalletNotVerified` on an
unverified wallet and with a `System` error when no treasury signer is
configured, both without touching the table; a failed submission
propagates its error with no record created; a successful submission
creates exactly one blockchain transaction, with status `pending` and
the submission's reference as its hash. -/
theorem process_withdrawal_spec (env : ChainEnv) (st : ChainState) (p : Nat)
    (c : CurrencyType) (amount : ℚ) (w : BlockchainWallet)
    (hw : st.bwallets p = some w) :
    (w.isVerified = false →
      process_withdrawal env st p c amount = (.error (.WalletNotVerified p), st)) ∧
    (w.isVerified = true → env.treasuryConfigured = false →
      process_withdrawal env st p c amount =
        (.error (.System msg_treasury_not_configured), st)) ∧
    (∀ e, w.isVerified = true → env.treasuryConfigured = true →
      withdrawal_submit env c w.solanaAddress amount = .error e →
      process_withdrawal env st p c amount = (.error e, st)) ∧
    (∀ h, w.isVerified = true → env.treasuryConfigured = true →
      withdrawal_submit env c w.solanaAddress amount = .ok h →
      process_withdrawal env st p c amount =
        (.ok { id := st.nextBTxId, playerId := p, currencyType := c,
               transactionType := .Withdrawal, amount := amount,
               transactionHash := h, status := .Pending, confirmedAt := none },
         { st with
             btxs := st.btxs ++
               [{ id := st.nextBTxId, playerId := p, currencyType := c,
                  transactionType := .Withdrawal, amount := amount,
                  transactionHash := h, status := .Pending, confirmedAt := none }]
             nextBTxId := st.nextBTxId + 1 })) := by
  refine ⟨fun hv => ?_, fun hv ht => ?_, fun e hv ht hsub => ?_,
    fun h hv ht hsub => ?_⟩
  · simp [process_withdrawal, get_bwallet, hw, hv]
  · simp [process_withdrawal, get_bwallet, hw, hv, ht]
  · simp [process_withdrawal, get_bwallet, hw, hv, ht, hsub]
  · simp [process_withdrawal, get_bwallet, hw, hv, ht, hsub, record_transaction]

def addr_ok : String := "treasury-verified-addr"

def addr_other : String := "unverified-addr"

def sig_ok : String := "submitted-sig"

def msg_rpc_down : String := "rpc unreachable"

def envC9 : ChainEnv :=
  { treasuryConfigured := true
    submit := fun _ addr _ =>
      if addr = addr_ok then .ok sig_ok else .error (.SolanaClient msg_rpc_down)
    parsesAsSignature := fun _ => true
    signatureStatus := fun _ => .stillPending
    now := 0 }

def stC9 : ChainState :=
  { bwallets := fun p =>
      if p = 0 then some ⟨0, addr_ok, true⟩
      else if p = 1 then some ⟨1, addr_other, false⟩
      else none
    btxs := []
    nextBTxId := 0 }

/-- Witness for C9: a withdrawal by the unverified player fails with
`WalletNotVerified` and no record; a withdrawal by the verified player
whose submission succeeds creates exactly one pending record carrying
the submission's signature. -/
theorem process_withdrawal_spec_witness :
    process_withdrawal envC9 stC9 1 .Solana 5 =
      (.error (.WalletNotVerified 1), stC9) ∧
    process_withdrawal envC9 stC9 0 .Solana 5 =
      (.ok ⟨0, 0, .Solana, .Withdrawal, 5, sig_ok, .Pending, none⟩,
       { stC9 with
           btxs := [⟨0, 0, .Solana, .Withdrawal, 5, sig_ok, .Pending, none⟩]
           nextBTxId := 1 }) := by
  constructor
  · exact (process_withdrawal_spec envC9 stC9 1 .Solana 5 ⟨1, addr_other, false⟩
      rfl).1 rfl
  · have h := (process_withdrawal_spec envC9 stC9 0 .Solana 5 ⟨0, addr_ok, true⟩
      rfl).2.2.2 sig_ok rfl rfl
      (by simp [withdrawal_submit, envC9])
    rw [h]
    rfl

/-! Non-negativity of balances (C3). -/

/-- All three balances of a wallet are non-negative. -/
def Wallet.NonNeg (w : Wallet) : Prop :=
  0 ≤ w.solanaBalance ∧ 0 ≤ w.exonsBalance ∧ 0 ≤ w.crystalsBalance

/-- Every wallet in the state has non-negative balances. -/
def LedgerState.NonNeg (st : LedgerState) : Prop :=
  ∀ p w, st.wallets p = some w → w.NonNeg

theorem Wallet.NonNeg.bal {w : Wallet} (hw : w.NonNeg) (c : CurrencyType) :
    0 ≤ w.bal c := by
  cases c
  · exact hw.1
  · exact hw.2.1
  · exact hw.2.2

theorem Wallet.NonNeg.setBal {w : Wallet} (hw : w.NonNeg) {c : CurrencyType}
    {v : ℚ} (hv : 0 ≤ v) : (w.setBal c v).NonNeg := by
  cases c <;> exact ⟨by simp [Wallet.setBal, hv, hw.1, hw.2.1, hw.2.2],
    by simp [Wallet.setBal, hv, hw.1, hw.2.1, hw.2.2],
    by simp [Wallet.setBal, hv, hw.1, hw.2.1, hw.2.2]⟩

theorem LedgerState.NonNeg.setWallet {st : LedgerState} (hst : st.NonNeg)
    {p : Nat} {w : Wallet} (hw : w.NonNeg) : (st.setWallet p w).NonNeg := by
  intro q wq hq
  by_cases hqp : q = p
  · subst hqp
    rw [LedgerState.setWallet_same] at hq
    cases hq
    exact hw
  · rw [LedgerState.setWallet_ne st p q w hqp] at hq
    exact hst q wq hq

theorem get_wallet_ok {st : LedgerState} {p : Nat} {w : Wallet}
    (h : get_wallet st p = .ok w) : st.wallets p = some w := by
  unfold get_wallet at h
  split at h
  · cases h; assumption
  · cases h

theorem nonneg_of_wallets_eq {st st' : LedgerState}
    (he : st'.wallets = st.wallets) (h : st.NonNeg) : st'.NonNeg :=
  fun p w hw => h p w (he ▸ hw)

theorem update_balance_nonneg (st : LedgerState) (p : Nat) (c : CurrencyType)
    (v : ℚ) (h : st.NonNeg) (_hv : 0 ≤ v) :
    ((update_balance st p c v).2).NonNeg := h

theorem add_currency_nonneg (st : LedgerState) (p : Nat) (c : CurrencyType)
    (a : ℚ) (h : st.NonNeg) : ((add_currency st p c a).2).NonNeg := by
  unfold add_currency
  split
  · exact h
  · split
    · exact h
    · next w hw =>
      exact update_balance_nonneg st p c _ h
        (add_nonneg ((h p w (get_wallet_ok hw)).bal c)
          (le_of_lt (not_le.mp (by assumption))))

theorem remove_currency_nonneg (st : LedgerState) (p : Nat) (c : CurrencyType)
    (a : ℚ) (h : st.NonNeg) : ((remove_currency st p c a).2).NonNeg := by
  unfold remove_currency
  split
  · exact h
  · split
    · exact h
    · next w _ =>
      split
      · exact h
      · exact update_balance_nonneg st p c _ h
          (sub_nonneg.mpr (not_lt.mp (by assumption)))

theorem create_transaction_wallets (st : LedgerState) (f t : Option Nat)
    (cid : Nat) (a tax : ℚ) (ty : TransactionType) (ref : Option Nat) :
    ((create_transaction st f t cid a tax ty ref).2).wallets = st.wallets := by
  unfold create_transaction
  split <;> rfl

theorem update_transaction_status_wallets (st : LedgerState) (id : Nat)
    (s : TransactionStatus) (h : Option String) :
    ((update_transaction_status st id s h).2).wallets = st.wallets := by
  unfold update_transaction_status
  dsimp only
  split <;> rfl

theorem transfer_blockchain_step_wallets (env : Env) (st1 : LedgerState)
    (currency : Currency) (c : CurrencyType) (txId : Nat) :
    ((transfer_blockchain_step env st1 currency c txId).2).wallets = st1.wallets := by
  unfold transfer_blockchain_step
  split
  · cases c
    · dsimp only
      split
      · split
        · rename_i e st2 heq
          have hw := update_transaction_status_wallets st1 txId .Completed
            (some mock_signature)
          rw [heq] at hw
          exact hw
        · rename_i x st2 heq
          have hw := update_transaction_status_wallets st1 txId .Completed
            (some mock_signature)
          rw [heq] at hw
          exact hw
      · rfl
    · rfl
    · rfl
  · rfl

theorem transfer_tax_step_nonneg (env : Env) (st4 : LedgerState)
    (fromP : Nat) (c : CurrencyType) (cid : Nat) (tax : ℚ) (txId : Nat)
    (h : st4.NonNeg) :
    ((transfer_tax_step env st4 fromP c cid tax txId).2).NonNeg := by
  unfold transfer_tax_step
  split
  · split
    · rename_i adminId hres
      split
      · rename_i e st5 heq
        have h5 := add_currency_nonneg st4 adminId c tax h
        rw [heq] at h5
        exact h5
      · rename_i x st5 heq
        have h5 : st5.NonNeg := by
          have := add_currency_nonneg st4 adminId c tax h
          rw [heq] at this
          exact this
        split
        · rename_i e st6 heq2
          have hw := create_transaction_wallets st5 (some fromP) (some adminId)
            cid tax 0 .Tax (some txId)
          rw [heq2] at hw
          exact nonneg_of_wallets_eq hw h5
        · rename_i x2 st6 heq2
          have hw := create_transaction_wallets st5 (some fromP) (some adminId)
            cid tax 0 .Tax (some txId)
          rw [heq2] at hw
          exact nonneg_of_wallets_eq hw h5
    · exact h
  · exact h

theorem transfer_finalize_step_wallets (st6 : LedgerState) (txRec : LedgerTx) :
    ((transfer_finalize_step st6 txRec).2).wallets = st6.wallets := by
  unfold transfer_finalize_step
  split
  · exact update_transaction_status_wallets st6 txRec.id .Completed none
  · rfl

theorem transfer_currency_nonneg (env : Env) (st : LedgerState)
    (fromP toP : Nat) (c : CurrencyType) (a : ℚ) (g : Bool)
    (h : st.NonNeg) : ((transfer_currency env st fromP toP c a g).2).NonNeg := by
  unfold transfer_currency
  split
  · exact h
  · split
    · exact h
    · rename_i currency hcat
      split
      · exact h
      · rename_i senderBalance hbal
        split
        · exact h
        · split
          · rename_i e st1 heq
            have hw := create_transaction_wallets st (some fromP) (some toP)
              currency.id a (calculate_tax env a currency.id g) .Transfer none
            rw [heq] at hw
            exact nonneg_of_wallets_eq hw h
          · rename_i txRec st1 heq
            have hst1 : st1.NonNeg := by
              have hw := create_transaction_wallets st (some fromP) (some toP)
                currency.id a (calculate_tax env a currency.id g) .Transfer none
              rw [heq] at hw
              exact nonneg_of_wallets_eq hw h
            split
            · rename_i e st2 heq2
              have hw := transfer_blockchain_step_wallets env st1 currency c txRec.id
              rw [heq2] at hw
              exact nonneg_of_wallets_eq hw hst1
            · rename_i u st2 heq2
              have hst2 : st2.NonNeg := by
                have hw := transfer_blockchain_step_wallets env st1 currency c txRec.id
                rw [heq2] at hw
                exact nonneg_of_wallets_eq hw hst1
              split
              · rename_i e st3 heq3
                have h3 := remove_currency_nonneg st2 fromP c (a + calculate_tax env a currency.id g) hst2
                rw [heq3] at h3
                exact h3
              · rename_i x st3 heq3
                have hst3 : st3.NonNeg := by
                  have h3 := remove_currency_nonneg st2 fromP c (a + calculate_tax env a currency.id g) hst2
                  rw [heq3] at h3
                  exact h3
                split
                · rename_i e st4 heq4
                  have h4 := add_currency_nonneg st3 toP c a hst3
                  rw [heq4] at h4
                  exact h4
                · rename_i y st4 heq4
                  have hst4 : st4.NonNeg := by
                    have h4 := add_currency_nonneg st3 toP c a hst3
                    rw [heq4] at h4
                    exact h4
                  split
                  · rename_i e st6 heq6
                    have h6 := transfer_tax_step_nonneg env st4 fromP c
                      currency.id (calculate_tax env a currency.id g) txRec.id hst4
                    rw [heq6] at h6
                    exact h6
                  · rename_i v st6 heq6
                    have hst6 : st6.NonNeg := by
                      have h6 := transfer_tax_step_nonneg env st4 fromP c
                        currency.id (calculate_tax env a currency.id g) txRec.id hst4
                      rw [heq6] at h6
                      exact h6
                    split
                    · rename_i e st7 heq7
                      have hw := transfer_finalize_step_wallets st6 txRec
                      rw [heq7] at hw
                      exact nonneg_of_wallets_eq hw hst6
                    · rename_i w7 st7 heq7
                      have hw := transfer_finalize_step_wallets st6 txRec
                      rw [heq7] at hw
                      exact nonneg_of_wallets_eq hw hst6

theorem reward_currency_nonneg (env : Env) (st : LedgerState) (p : Nat)
    (c : CurrencyType) (a : ℚ) (ty : TransactionType) (ref : Option Nat)
    (h : st.NonNeg) : ((reward_currency env st p c a ty ref).2).NonNeg := by
  unfold reward_currency
  split
  · exact h
  · split
    · exact h
    · rename_i currency hcat
      split
      · rename_i e st1 heq
        have hw := create_transaction_wallets st none (some p) currency.id a 0 ty ref
        rw [heq] at hw
        exact nonneg_of_wallets_eq hw h
      · rename_i txRec st1 heq
        have hst1 : st1.NonNeg := by
          have hw := create_transaction_wallets st none (some p) currency.id a 0 ty ref
          rw [heq] at hw
          exact nonneg_of_wallets_eq hw h
        split
        · rename_i e st2 heq2
          have h2 := add_currency_nonneg st1 p c a hst1
          rw [heq2] at h2
          exact h2
        · rename_i x st2 heq2
          have hst2 : st2.NonNeg := by
            have h2 := add_currency_nonneg st1 p c a hst1
            rw [heq2] at h2
            exact h2
          split
          · rename_i e st3 heq3
            have hw := update_transaction_status_wallets st2 txRec.id .Completed none
            rw [heq3] at hw
            exact nonneg_of_wallets_eq hw hst2
          · rename_i x3 st3 heq3
            have hw := update_transaction_status_wallets st2 txRec.id .Completed none
            rw [heq3] at hw
            exact nonneg_of_wallets_eq hw hst2

theorem swap_complete_wallets (st5 : LedgerState) (swapId fromTxId toTxId : Nat) :
    ((swap_complete st5 swapId fromTxId toTxId).2).wallets = st5.wallets := by
  unfold swap_complete
  dsimp only
  split <;> rfl

theorem swap_insert_wallets (st : LedgerState) (s : SwapTx) :
    (swap_insert st s).wallets = st.wallets := rfl

theorem swap_currency_nonneg (env : Env) (st : LedgerState) (p : Nat)
    (fromC toC : CurrencyType) (a : ℚ) (h : st.NonNeg) :
    ((swap_currency env st p fromC toC a).2).NonNeg := by
  unfold swap_currency
  split
  · exact h
  · split
    · exact h
    · rename_i toAmount feeAmount rate hq
      have hst1 : (swap_insert st (swap_record st p fromC toC a toAmount
          feeAmount rate)).NonNeg := nonneg_of_wallets_eq rfl h
      split
      · rename_i e st2 heq2
        have h2 := remove_currency_nonneg (swap_insert st (swap_record st p
          fromC toC a toAmount feeAmount rate)) p fromC a hst1
        rw [heq2] at h2
        exact h2
      · rename_i x2 st2 heq2
        have hst2 : st2.NonNeg := by
          have h2 := remove_currency_nonneg (swap_insert st (swap_record st p
            fromC toC a toAmount feeAmount rate)) p fromC a hst1
          rw [heq2] at h2
          exact h2
        split
        · exact hst2
        · rename_i fromCid hid1
          split
          · rename_i e st3 heq3
            have hw := create_transaction_wallets st2 (some p) none fromCid a 0
              .Swap (some st.nextSwapId)
            rw [heq3] at hw
            exact nonneg_of_wallets_eq hw hst2
          · rename_i fromTx st3 heq3
            have hst3 : st3.NonNeg := by
              have hw := create_transaction_wallets st2 (some p) none fromCid a 0
                .Swap (some st.nextSwapId)
              rw [heq3] at hw
              exact nonneg_of_wallets_eq hw hst2
            split
            · rename_i e st4 heq4
              have h4 := add_currency_nonneg st3 p toC toAmount hst3
              rw [heq4] at h4
              exact h4
            · rename_i x4 st4 heq4
              have hst4 : st4.NonNeg := by
                have h4 := add_currency_nonneg st3 p toC toAmount hst3
                rw [heq4] at h4
                exact h4
              split
              · exact hst4
              · rename_i toCid hid2
                split
                · rename_i e st5 heq5
                  have hw := create_transaction_wallets st4 none (some p) toCid
                    toAmount 0 .Swap (some st.nextSwapId)
                  rw [heq5] at hw
                  exact nonneg_of_wallets_eq hw hst4
                · rename_i toTx st5 heq5
                  have hst5 : st5.NonNeg := by
                    have hw := create_transaction_wallets st4 none (some p) toCid
                      toAmount 0 .Swap (some st.nextSwapId)
                    rw [heq5] at hw
                    exact nonneg_of_wallets_eq hw hst4
                  exact nonneg_of_wallets_eq
                    (swap_complete_wallets st5 st.nextSwapId fromTx.id toTx.id) hst5

/-- A ledger operation, as invoked through the public service surface. -/
inductive LedgerOp
  | credit (p : Nat) (c : CurrencyType) (a : ℚ)
  | debit (p : Nat) (c : CurrencyType) (a : ℚ)
  | transferOp (fromP toP : Nat) (c : CurrencyType) (a : ℚ) (g : Bool)
  | rewardOp (p : Nat) (c : CurrencyType) (a : ℚ)
  | swapOp (p : Nat) (fromC toC : CurrencyType) (a : ℚ)

/-- The state reached by one ledger operation (its returned state,
whether it succeeded or failed). -/
def apply_op (env : Env) (st : LedgerState) : LedgerOp → LedgerState
  | .credit p c a => (add_currency st p c a).2
  | .debit p c a => (remove_currency st p c a).2
  | .transferOp fromP toP c a g => (transfer_currency env st fromP toP c a g).2
  | .rewardOp p c a => (reward_currency env st p c a .Reward none).2
  | .swapOp p fromC toC a => (swap_currency env st p fromC toC a).2

/-- The state reached by a sequence of ledger operations. -/
def apply_ops (env : Env) (st : LedgerState) (ops : List LedgerOp) : LedgerState :=
  ops.foldl (apply_op env) st

/-- C3: starting from a state whose wallet balances are all
non-negative, every sequence of ledger operations (credit, debit,
transfer, reward, swap) — including their failure paths — leaves every
balance of every wallet non-negative.  In this code the invariant holds
in the strongest possible way: every balance-write path ends in
`update_balance`, whose malformed UPDATE always fails, so no operation
ever changes any balance at all; the validation checks guarding the
write (positivity, sufficiency) are faithful and would preserve the
invariant even if the write worked. -/
theorem ledger_ops_nonneg (env : Env) (st : LedgerState) (ops : List LedgerOp)
    (h : st.NonNeg) : (apply_ops env st ops).NonNeg := by
  induction ops generalizing st with
  | nil => exact h
  | cons op ops ih =>
    refine ih (apply_op env st op) ?_
    cases op with
    | credit p c a => exact add_currency_nonneg st p c a h
    | debit p c a => exact remove_currency_nonneg st p c a h
    | transferOp fromP toP c a g => exact transfer_currency_nonneg env st fromP toP c a g h
    | rewardOp p c a => exact reward_currency_nonneg env st p c a .Reward none h
    | swapOp p fromC toC a => exact swap_currency_nonneg env st p fromC toC a h

def envC3 : Env :=
  { catalog := fun c =>
      match c with
      | .Solana => some ⟨1, true⟩
      | .Exons => some ⟨2, true⟩
      | .Crystals => some ⟨3, false⟩
    taxSettings := fun cid =>
      if cid = 3 then some ⟨13, 2, default_admin_account⟩ else none
    resolvePlayer := fun u => if u = default_admin_account then some 2 else none
    adminWallet := none
    solanaConfigured := false
    rates := fun f t =>
      if f = .Exons ∧ t = .Crystals then some rateC6 else none }

def stC3 : LedgerState :=
  { wallets := fun p => if p ≤ 2 then some ⟨1, 2, 50⟩ else none
    txLog := []
    nextTxId := 0
    swapLog := []
    nextSwapId := 0 }

def opsC3 : List LedgerOp :=
  [.credit 0 .Crystals 10, .transferOp 0 1 .Crystals 5 false,
   .debit 1 .Crystals 100, .swapOp 0 .Exons .Crystals 1,
   .rewardOp 1 .Solana 2]

/-- Witness for C3: a concrete mixed sequence of credit, transfer (with
13% tax), an over-drawing debit, a swap and a reward, starting from
non-negative wallets, ends with every balance non-negative. -/
theorem ledger_ops_nonneg_witness :
    stC3.NonNeg ∧ (apply_ops envC3 stC3 opsC3).NonNeg := by
  have hnn : stC3.NonNeg := by
    intro p w hw
    by_cases hp : p ≤ 2
    · rw [show stC3.wallets p = some ⟨1, 2, 50⟩ from by simp [stC3, hp]] at hw
      injection hw with hw
      subst hw
      exact ⟨by norm_num, by norm_num, by norm_num⟩
    · rw [show stC3.wallets p = none from by simp [stC3, hp]] at hw
      cases hw
  exact ⟨hnn, ledger_ops_nonneg envC3 stC3 opsC3 hnn⟩

def rateC2 : ExchangeRate := ⟨100, 1, 1000, 13, true⟩

def envC2 : Env :=
  { catalog := fun c =>
      match c with
      | .Solana => some ⟨1, true⟩
      | .Exons => some ⟨2, true⟩
      | .Crystals => some ⟨3, false⟩
    taxSettings := fun _ => none
    resolvePlayer := fun _ => none
    adminWallet := none
    solanaConfigured := false
    rates := fun f t =>
      if f = .Exons ∧ t = .Crystals then some rateC2 else none }

def stC2 : LedgerState :=
  { wallets := fun p => if p = 0 then some ⟨0, 10, 5⟩ else none
    txLog := []
    nextTxId := 0
    swapLog := []
    nextSwapId := 0 }

/-- C2 evaluated at the failing input: with an active Exons→Crystals
rate (rate 100, fee 13%, bounds [1, 1000]) and a player holding exactly
the 10 Exons being swapped, the swap quotes to_amount 870, inserts the
`pending` swap record, and then the debit leg fails — `remove_currency`
passes its sufficiency check and dies in `update_balance`'s malformed
UPDATE (`SET <col> = <col>` with the amount bound to a parameter the
query lacks).  The `tx.rollback()` covers none of the pool-committed
queries, so the call returns a database error with both balances
unchanged and the swap record left `pending`; `swap_currency` never
writes status `failed` anywhere (its only writes are the `pending`
insert and the `completed` update), so no swap ever reaches the
claimed terminal `failed` state — and, since every balance write fails,
none ever completes either. -/
theorem swap_currency_stuck_pending_code_bug :
    swap_currency envC2 stC2 0 .Exons .Crystals 10 =
      (.error (.Currency .Database),
       swap_insert stC2 (swap_record stC2 0 .Exons .Crystals 10 870 (13 / 10) 100)) ∧
    bal (swap_currency envC2 stC2 0 .Exons .Crystals 10).2 0 .Exons =
      bal stC2 0 .Exons ∧
    bal (swap_currency envC2 stC2 0 .Exons .Crystals 10).2 0 .Crystals =
      bal stC2 0 .Crystals ∧
    ((swap_currency envC2 stC2 0 .Exons .Crystals 10).2.swapLog.map
      fun s => s.status) = [.Pending] := by
  have hq : calculate_swap_amount envC2 .Exons .Crystals 10 =
      .ok (870, 13 / 10, 100) := by
    norm_num [calculate_swap_amount, get_exchange_rate, envC2, rateC2]
  have hrun : swap_currency envC2 stC2 0 .Exons .Crystals 10 =
      (.error (.Currency .Database),
       swap_insert stC2 (swap_record stC2 0 .Exons .Crystals 10 870 (13 / 10) 100)) := by
    unfold swap_currency
    rw [hq]
    norm_num [remove_currency, get_wallet, swap_insert, swap_record, stC2,
      update_balance, Wallet.bal]
  rw [hrun]
  exact ⟨rfl, rfl, rfl, rfl⟩

def envC1w : Env :=
  { catalog := fun c =>
      match c with
      | .Crystals => some ⟨3, false⟩
      | _ => none
    taxSettings := fun cid =>
      if cid = 3 then some ⟨13, 2, default_admin_account⟩ else none
    resolvePlayer := fun u => if u = default_admin_account then some 2 else none
    adminWallet := none
    solanaConfigured := false
    rates := fun _ _ => none }

def stC1w : LedgerState :=
  { wallets := fun p => if p ≤ 2 then some ⟨0, 0, 200⟩ else none
    txLog := []
    nextTxId := 0
    swapLog := []
    nextSwapId := 0 }

/-- C1 evaluated at the failing input, the spec's concrete scenario 2:
a transfer of 100 Crystals at 13% tax between distinct players 0 → 1
(tax recipient 2), all holding 200 Crystals.  The code computes tax 13,
passes the 200 ≥ 113 sufficiency check and records the pending transfer,
but the debit then fails inside `update_balance`'s malformed UPDATE
(`SET <col> = <col>` with the amount bound to a parameter the query
lacks), so the call returns a database error with every balance
unchanged and the record left `pending` — no transfer can ever complete,
so the claimed conservation deltas of a completed transfer are never
realized. -/
theorem transfer_currency_update_bug :
    transfer_currency envC1w stC1w 0 1 .Crystals 100 false =
      (.error .Database,
       { stC1w with
           txLog := [⟨0, some 0, some 1, 3, 100, 13, .Transfer, none, .Pending, none⟩]
           nextTxId := 1 }) ∧
    bal (transfer_currency envC1w stC1w 0 1 .Crystals 100 false).2 0 .Crystals =
      bal stC1w 0 .Crystals ∧
    bal (transfer_currency envC1w stC1w 0 1 .Crystals 100 false).2 1 .Crystals =
      bal stC1w 1 .Crystals ∧
    bal (transfer_currency envC1w stC1w 0 1 .Crystals 100 false).2 2 .Crystals =
      bal stC1w 2 .Crystals := by
  have hrun : transfer_currency envC1w stC1w 0 1 .Crystals 100 false =
      (.error .Database,
       { stC1w with
           txLog := [⟨0, some 0, some 1, 3, 100, 13, .Transfer, none, .Pending, none⟩]
           nextTxId := 1 }) := by
    unfold transfer_currency
    norm_num [envC1w, get_balance, get_wallet, stC1w, create_transaction,
      calculate_tax, get_tax_settings, transfer_blockchain_step,
      remove_currency, update_balance, Wallet.bal]
  rw [hrun]
  exact ⟨rfl, rfl, rfl, rfl⟩

end Terminusa
